import Mathlib

/-!
Verification of the wrapper CLI (copilot-sentinel) against its specification.

This file gives a shallow embedding, in Lean 4, of the state-manipulating parts
of the tool: the ledger (state.json), the accept gate (wrapper/commands/accept.py),
the rule-based verification checks (wrapper/commands/verify.py), the external-state
aggregation (wrapper/commands/sync_external.py) and the repository snapshot scan
(wrapper/commands/snapshot.py). Side effects on auxiliary files (deviations,
implementation plan, prompt artifacts) and the outbound LLM calls are modelled by
explicit inputs and outputs; machine strings are Lean Strings and JSON/YAML
mappings are Lean structures with the same field names.
-/

namespace Wrapper

/-- One completed-step entry of the ledger, as appended by add_done_step in
wrapper/core/files.py: a mapping with step_id, result and timestamp fields. -/
structure DoneStep where
  step_id : String
  result : String
  timestamp : String
  deriving DecidableEq, Repr

/-- The ledger state.json. Fields written by the commands modelled here; absent
JSON keys are modelled as none. -/
structure Ledger where
  repo : String
  done_steps : List DoneStep
  invariants : List String
  last_verified : Option String
  last_verify_status : Option String
  last_verify_step : Option String
  last_verify_timestamp : Option String
  baseline_snapshot_timestamp : Option String
  baseline_verified : Option Bool
  deriving DecidableEq, Repr

/-- A forbidden item of repo.yaml must_not or step.yaml forbidden: either a plain
string or a YAML mapping (normalize_forbidden_item takes its first value). -/
inductive ForbiddenItem where
  | str (s : String)
  | dict (entries : List (String × String))
  deriving DecidableEq, Repr

/-- A step definition (step.yaml) as consumed by verify and accept. -/
structure Step where
  step_id : String
  type : String
  goal : String
  allowed_files : List String
  forbidden : List ForbiddenItem
  success_criteria : List String
  deriving DecidableEq, Repr

/-- wrapper/commands/verify.py normalize_forbidden_item: a string is returned
as-is; a mapping yields its first value (empty string for an empty mapping). -/
def normalize_forbidden_item : ForbiddenItem → String
  | .str s => s
  | .dict [] => ""
  | .dict ((_, v) :: _) => v

/-- Python substring membership (needle in hay) over the character data of the
two strings. -/
def strContains (hay needle : String) : Bool :=
  (List.range (hay.data.length + 1)).any
    (fun i => needle.data.isPrefixOf (hay.data.drop i))

/-- Python str.startswith over the character data of the two strings. -/
def pyStartsWith (s pre : String) : Bool :=
  pre.data.isPrefixOf s.data

/-- Python str.strip: drop leading and trailing whitespace. -/
def pyStrip (s : String) : String :=
  ⟨(((s.data.dropWhile Char.isWhitespace).reverse.dropWhile
      Char.isWhitespace).reverse)⟩

/-- Python str.lower (ASCII case mapping). -/
def pyLower (s : String) : String :=
  ⟨s.data.map Char.toLower⟩

/-- Python str.upper (ASCII case mapping). -/
def pyUpper (s : String) : String :=
  ⟨s.data.map Char.toUpper⟩

/-- wrapper/core/files.py add_done_step: append a completed step record to
done_steps and set last_verified to the current time. -/
def add_done_step (step_id : String) (result : String) (now : String)
    (state : Ledger) : Ledger :=
  { state with
    done_steps := state.done_steps ++
      [{ step_id := step_id, result := result, timestamp := now }]
    last_verified := some now }

/-- The interactive inputs consumed by cmd_accept: the wall-clock time used for
timestamps, and the answer typed at the re-accept confirmation prompt. -/
structure AcceptEnv where
  now : String
  reaccept_response : String
  deriving Repr

/-- wrapper/commands/accept.py cmd_accept, restricted to its effect on the
ledger. The strict gate refuses unless last_verify_status is PASS and
last_verify_step equals the current step id; an already-accepted step id asks
for confirmation and aborts unless the answer is y; otherwise the step is
appended to done_steps and, for a verification-type step with success
criteria, each criterion not already in the (pre-loop) invariants list is
appended. The deviation-resolution and implementation-plan bookkeeping of the
source writes files other than state.json and is not part of this model. -/
def cmd_accept (step : Step) (state : Ledger) (env : AcceptEnv) : Bool × Ledger :=
  let step_id := step.step_id
  let step_type := step.type
  if state.last_verify_status ≠ some "PASS" then
    (false, state)
  else if state.last_verify_step ≠ some step_id then
    (false, state)
  else
    let done_ids := state.done_steps.map (fun s => s.step_id)
    if step_id ∈ done_ids ∧ pyLower (pyStrip env.reaccept_response) ≠ "y" then
      (false, state)
    else
      let state1 := add_done_step step_id (step_type ++ " completed") env.now state
      let state2 :=
        if step_type = "verification" ∧ step.success_criteria ≠ [] then
          let existing := state1.invariants
          { state1 with
            invariants := state1.invariants ++
              step.success_criteria.filter (fun c => c ∉ existing) }
        else state1
      (true, state2)

/-- A minimal implementation step used to instantiate the accept theorems. -/
def stepImplA : Step :=
  { step_id := "s1", type := "implementation", goal := "g",
    allowed_files := ["a.txt"], forbidden := [], success_criteria := [] }

/-- A verification step whose success criteria contain an internal duplicate. -/
def stepVerifDup : Step :=
  { step_id := "v1", type := "verification", goal := "g",
    allowed_files := [], forbidden := [], success_criteria := ["b", "b"] }

/-- A verification step with duplicate-free success criteria. -/
def stepVerifOk : Step :=
  { step_id := "v2", type := "verification", goal := "g",
    allowed_files := [], forbidden := [], success_criteria := ["a", "c"] }

/-- A ledger with no successful verification recorded. -/
def ledgerNoPass : Ledger :=
  { repo := "r", done_steps := [], invariants := [],
    last_verified := none, last_verify_status := some "FAIL",
    last_verify_step := some "s1", last_verify_timestamp := none,
    baseline_snapshot_timestamp := none, baseline_verified := none }

/-- A ledger whose last verification passed for step s1. -/
def ledgerPassS1 : Ledger :=
  { repo := "r", done_steps := [], invariants := [],
    last_verified := none, last_verify_status := some "PASS",
    last_verify_step := some "s1", last_verify_timestamp := some "t0",
    baseline_snapshot_timestamp := none, baseline_verified := none }

/-- A ledger whose last verification passed for step v1, with one invariant. -/
def ledgerPassV1 : Ledger :=
  { repo := "r", done_steps := [], invariants := ["a"],
    last_verified := none, last_verify_status := some "PASS",
    last_verify_step := some "v1", last_verify_timestamp := some "t0",
    baseline_snapshot_timestamp := none, baseline_verified := none }

/-- A ledger whose last verification passed for step v2, with one invariant. -/
def ledgerPassV2 : Ledger :=
  { repo := "r", done_steps := [], invariants := ["a"],
    last_verified := none, last_verify_status := some "PASS",
    last_verify_step := some "v2", last_verify_timestamp := some "t0",
    baseline_snapshot_timestamp := none, baseline_verified := none }

/-- The interactive environment used by the accept witnesses. -/
def envA : AcceptEnv := { now := "t1", reaccept_response := "" }

/-- Result accumulator of the verification checks
(wrapper/commands/verify.py VerificationResult). -/
structure VerificationResult where
  passed : Bool
  errors : List String
  warnings : List String
  llm_analysis : String
  deriving DecidableEq, Repr

/-- The freshly constructed VerificationResult. -/
def VerificationResult.empty : VerificationResult :=
  { passed := true, errors := [], warnings := [], llm_analysis := "" }

/-- VerificationResult.add_error: clear passed and append the message. -/
def VerificationResult.add_error (r : VerificationResult) (msg : String) :
    VerificationResult :=
  { r with passed := false, errors := r.errors ++ [msg] }

/-- VerificationResult.add_warning: append the message to warnings. -/
def VerificationResult.add_warning (r : VerificationResult) (msg : String) :
    VerificationResult :=
  { r with warnings := r.warnings ++ [msg] }

/-- wrapper/commands/verify.py check_allowed_files: files under the .wrapper/
state directory are always allowed to change; with an empty allowed list any
other change is an error; otherwise every changed file outside the allowed
list is reported in one error. -/
def check_allowed_files (changed : Finset String) (allowed : List String)
    (result : VerificationResult) : VerificationResult :=
  let changed_code := changed.filter (fun f => ¬ pyStartsWith f ".wrapper/")
  if allowed = [] then
    if changed_code ≠ ∅ then
      result.add_error ("No files should be modified, but found changes in: " ++
        String.intercalate ", " (changed_code.sort (· ≤ ·)))
    else result
  else
    let allowed_set := allowed.toFinset
    let disallowed := changed_code \ allowed_set
    if disallowed ≠ ∅ then
      result.add_error ("Modified files not in allowed list: " ++
        String.intercalate ", " (disallowed.sort (· ≤ ·)))
    else result

/-- wrapper/commands/verify.py check_new_directories: any new directory is
reported as one warning (never an error). -/
def check_new_directories (new_dirs : Finset String) (architecture : String)
    (result : VerificationResult) : VerificationResult :=
  if new_dirs ≠ ∅ then
    result.add_warning ("New directories created: " ++
      String.intercalate ", " (new_dirs.sort (· ≤ ·)))
  else result

/-- The fixed keyword table of check_forbidden_patterns. -/
def pattern_keywords : List (String × List String) :=
  [("ui", ["<div", "<button", "useState", "className=", "render("]),
   ("http", ["app.get(", "app.post(", "@Get(", "@Post(", "router.get", "express()"]),
   ("database", ["CREATE TABLE", "SELECT * FROM", "INSERT INTO", ".query(", "prisma."])]

/-- The error message emitted by check_forbidden_patterns for a forbidden item
and a matched token. -/
def forbidden_error_msg (forbidden_item pattern : String) : String :=
  "Forbidden pattern detected (" ++ forbidden_item ++ "): found \x27" ++
    pattern ++ "\x27 in diff"

/-- wrapper/commands/verify.py check_forbidden_patterns: for each forbidden
item (normalized to text, empty text skipped), each keyword of the fixed table
contained in the lowercased item text triggers a scan of the lowercased diff
for each associated token; every hit appends an error naming the item and the
token. -/
def check_forbidden_patterns (diff : String) (forbidden : List ForbiddenItem)
    (result : VerificationResult) : VerificationResult :=
  forbidden.foldl (fun r item =>
    let forbidden_item := normalize_forbidden_item item
    if forbidden_item = "" then r
    else
      let forbidden_lower := (pyLower forbidden_item)
      pattern_keywords.foldl (fun r kp =>
        if strContains forbidden_lower kp.1 then
          kp.2.foldl (fun r pattern =>
            if strContains (pyLower diff) (pyLower pattern) then
              r.add_error (forbidden_error_msg forbidden_item pattern)
            else r) r
        else r) r) result

/-- The list of errors check_forbidden_patterns appends to its incoming
result (same scan, written as nested flat maps). -/
def forbidden_error_list (diff : String) (forbidden : List ForbiddenItem) :
    List String :=
  forbidden.flatMap (fun item =>
    let forbidden_item := normalize_forbidden_item item
    if forbidden_item = "" then []
    else
      pattern_keywords.flatMap (fun kp =>
        if strContains (pyLower forbidden_item) kp.1 then
          kp.2.flatMap (fun pattern =>
            if strContains (pyLower diff) (pyLower pattern) then
              [forbidden_error_msg forbidden_item pattern]
            else [])
        else []))

/-- The list of errors check_allowed_files appends to its incoming result. -/
def allowed_files_error_list (changed : Finset String) (allowed : List String) :
    List String :=
  let changed_code := changed.filter (fun f => ¬ pyStartsWith f ".wrapper/")
  if allowed = [] then
    if changed_code ≠ ∅ then
      ["No files should be modified, but found changes in: " ++
        String.intercalate ", " (changed_code.sort (· ≤ ·))]
    else []
  else
    let disallowed := changed_code \ allowed.toFinset
    if disallowed ≠ ∅ then
      ["Modified files not in allowed list: " ++
        String.intercalate ", " (disallowed.sort (· ≤ ·))]
    else []

/-- The marker line of copilot_output.txt. -/
def COPILOT_MARKER : String := "[PASTE AI OUTPUT BELOW THIS LINE]"

/-- wrapper/commands/verify.py get_copilot_output_content: none when the file
is absent, only the template, or blank; the pasted content after the marker
(or the whole trimmed content when no marker is present) otherwise. -/
def get_copilot_output_content (content : Option String) : Option String :=
  match content with
  | none => none
  | some content =>
    if strContains content COPILOT_MARKER then
      let parts := content.splitOn COPILOT_MARKER
      if parts.length > 1 then
        let actual := pyStrip ((parts.get? 1).getD "")
        if actual ≠ "" then some actual else none
      else none
    else
      if (pyStrip content) ≠ "" then some (pyStrip content) else none

/-- wrapper/commands/verify.py is_first_verification. -/
def is_first_verification (state : Ledger) : Bool :=
  state.done_steps.length == 0

/-- wrapper/commands/verify.py capture_baseline_if_first, restricted to its
effect on the ledger: on the first verification with no existing baseline
snapshot the snapshot timestamp is recorded and baseline_verified cleared.
The snapshot and deviations files it also writes are outside the ledger. -/
def capture_baseline_if_first (state : Ledger) (baseline_exists : Bool)
    (snapshot_timestamp : String) : Ledger :=
  if ¬ is_first_verification state then state
  else if baseline_exists then state
  else
    { state with
      baseline_snapshot_timestamp := some snapshot_timestamp
      baseline_verified := some false }

/-- Outcome of the outbound LLM call of cmd_verify: the client either raises
(modelled as unavailable: a warning is printed and only rule checks count) or
returns a response text. -/
inductive LLMOutcome where
  | unavailable
  | response (text : String)
  deriving DecidableEq, Repr

/-- True when the LLM phase adds no error: the client is unavailable or its
response does not contain VERDICT: FAIL (case-insensitively). -/
def llmQuiet : LLMOutcome → Bool
  | .unavailable => true
  | .response text => ! strContains (pyUpper text) "VERDICT: FAIL"

/-- The environment cmd_verify reads: repository status, the loaded step and
documents, the git inspector results (diff text, changed files, new
directories), the raw copilot_output.txt content, the must_not list of
repo.yaml, the LLM outcome, and whether a baseline snapshot file exists. -/
structure VerifyEnv where
  is_git_repo : Bool
  step : Option Step
  staged : Bool
  state : Ledger
  architecture : String
  copilot_file : Option String
  diff : String
  changed_files : Finset String
  new_dirs : Finset String
  must_not : List ForbiddenItem
  llm : LLMOutcome
  baseline_exists : Bool
  snapshot_timestamp : String

/-- The observable outcome of cmd_verify: the boolean return value, the final
ledger, the rule-phase result (accumulated before the LLM analysis), the
final result after the LLM check, and the verdict (none when cmd_verify
returns early, before the PASSED/FAILED branch). -/
structure VerifyRun where
  ret : Bool
  state : Ledger
  rule_result : VerificationResult
  final_result : VerificationResult
  verdict : Option Bool
  deriving DecidableEq

/-- The rule-based check block of cmd_verify: executed only when the diff is
non-blank; allowed files, then new directories (only when any), then
forbidden patterns over must_not extended with the step's forbidden list. -/
def run_rule_checks (env : VerifyEnv) (step : Step) (has_diff : Bool) :
    VerificationResult :=
  let result := VerificationResult.empty
  if has_diff then
    let result := check_allowed_files env.changed_files step.allowed_files result
    let result :=
      if env.new_dirs ≠ ∅ then
        check_new_directories env.new_dirs env.architecture result
      else result
    let forbidden := env.must_not ++ step.forbidden
    check_forbidden_patterns env.diff forbidden result
  else result

/-- The LLM phase of cmd_verify: a RuntimeError degrades to rule-based checks
only; otherwise the response is stored and a VERDICT: FAIL substring (of the
uppercased response) adds one error. -/
def llm_phase (env : VerifyEnv) (r : VerificationResult) : VerificationResult :=
  match env.llm with
  | .unavailable => r
  | .response text =>
    let r := { r with llm_analysis := text }
    if strContains (pyUpper text) "VERDICT: FAIL" then
      r.add_error "LLM analysis found issues"
    else r

/-- The early-return outcome of cmd_verify (not a git repository, or no
step.yaml): failure, ledger untouched, no verdict. -/
def verifyEarly (env : VerifyEnv) : VerifyRun :=
  { ret := false, state := env.state, rule_result := VerificationResult.empty,
    final_result := VerificationResult.empty, verdict := none }

/-- The has_diff flag of cmd_verify: the diff text is non-blank. -/
def verify_has_diff (env : VerifyEnv) : Bool :=
  (pyStrip env.diff) ≠ ""

/-- The body of cmd_verify once a step is loaded in a git repository
(wrapper/commands/verify.py cmd_verify, from the baseline capture on): a
verification-type step with no diff requires pasted copilot output, else the
stage blocks with no verdict; otherwise the rule checks (only when a diff
exists) and the LLM analysis accumulate errors and the ledger's
last_verify_status (PASS when no error was accumulated, FAIL otherwise),
last_verify_step and last_verify_timestamp are written. The repair prompt and
diff artifacts the source also writes are not part of the ledger. -/
def cmd_verify_loaded (env : VerifyEnv) (step : Step) (now : String) : VerifyRun :=
  if step.type = "verification" ∧ ¬ verify_has_diff env ∧
      get_copilot_output_content env.copilot_file = none then
    { ret := false,
      state := capture_baseline_if_first env.state env.baseline_exists
        env.snapshot_timestamp,
      rule_result := VerificationResult.empty,
      final_result := VerificationResult.empty, verdict := none }
  else if (llm_phase env (run_rule_checks env step (verify_has_diff env))).passed then
    { ret := true,
      state := { capture_baseline_if_first env.state env.baseline_exists
          env.snapshot_timestamp with
        last_verify_status := some "PASS",
        last_verify_step := some step.step_id,
        last_verify_timestamp := some now },
      rule_result := run_rule_checks env step (verify_has_diff env),
      final_result := llm_phase env (run_rule_checks env step (verify_has_diff env)),
      verdict := some true }
  else
    { ret := false,
      state := { capture_baseline_if_first env.state env.baseline_exists
          env.snapshot_timestamp with
        last_verify_status := some "FAIL",
        last_verify_step := some step.step_id,
        last_verify_timestamp := some now },
      rule_result := run_rule_checks env step (verify_has_diff env),
      final_result := llm_phase env (run_rule_checks env step (verify_has_diff env)),
      verdict := some false }

/-- wrapper/commands/verify.py cmd_verify: early failure when not in a git
repository or when step.yaml is missing, else the loaded-step body. -/
def cmd_verify (env : VerifyEnv) (now : String) : VerifyRun :=
  if ¬ env.is_git_repo then
    verifyEarly env
  else
    match env.step with
    | none => verifyEarly env
    | some step => cmd_verify_loaded env step now

/-- An implementation step with empty allowed_files and a forbidden item
mentioning UI work. -/
def stepWrapperOnly : Step :=
  { step_id := "w1", type := "implementation", goal := "g",
    allowed_files := [], forbidden := [.str "No UI changes"],
    success_criteria := [] }

/-- An implementation step with empty allowed_files and nothing forbidden. -/
def stepEmptyAllowed : Step :=
  { step_id := "w2", type := "implementation", goal := "g",
    allowed_files := [], forbidden := [], success_criteria := [] }

/-- A quiet verify environment: implementation step, blank diff, no changed
files, LLM unavailable. -/
def envPass : VerifyEnv :=
  { is_git_repo := true, step := some stepImplA, staged := false,
    state := ledgerNoPass, architecture := "", copilot_file := none,
    diff := "", changed_files := ∅, new_dirs := ∅, must_not := [],
    llm := .unavailable, baseline_exists := true, snapshot_timestamp := "ts" }

/-- A verify environment whose only changed file lives under .wrapper/ but
whose diff text trips the UI forbidden-pattern scan. -/
def envC3 : VerifyEnv :=
  { is_git_repo := true, step := some stepWrapperOnly, staged := false,
    state := ledgerNoPass, architecture := "", copilot_file := none,
    diff := "+<div>", changed_files := {".wrapper/diff.txt"}, new_dirs := ∅,
    must_not := [], llm := .unavailable, baseline_exists := true,
    snapshot_timestamp := "ts" }

/-- First-some choice on options (Python dict-get fallback chains). -/
def optOr {α : Type} : Option α → Option α → Option α
  | some x, _ => some x
  | none, b => b

/-- A done_steps element of a foreign state.json, as a JSON value: a mapping
(step_id and result possibly absent), a bare string, or anything else. -/
inductive DoneEntry where
  | dict (step_id : Option String) (result : Option String)
  | str (s : String)
  | other
  deriving DecidableEq, Repr

/-- A foreign repo's parsed state.json as consumed by extract_repo_state:
repo may be absent (none); invariants none models a missing or non-list
value. -/
structure SrcState where
  repo : Option String
  done_steps : List DoneEntry
  invariants : Option (List String)
  deriving DecidableEq, Repr

/-- What extract_repo_state finds at one --from path, in the order the source
checks it. -/
inductive SrcCheck where
  | missing
  | notDir
  | noWrapperDir
  | noStateFile
  | invalidJson
  | notDict
  | valid (state : SrcState)
  deriving DecidableEq, Repr

/-- One --from argument of sync-external: the path's final component (the
directory name used as fallback repo name) and what is found there. -/
structure SrcPath where
  name : String
  check : SrcCheck
  deriving DecidableEq, Repr

/-- One per-repo entry of the external-state document. -/
structure RepoEntry where
  done_steps : List String
  invariants : List String
  deriving DecidableEq, Repr

/-- wrapper/commands/sync_external.py extract_repo_state: each failed
filesystem or parse check raises (modelled as an error message, with the path
abstracted to its final component); a valid state yields the repo name (the
state's repo field when present and non-empty, else the directory name), the
done-step summaries (step_id: result with unknown/completed defaults for
mapping entries, bare strings as-is, other values skipped) and the invariants
list as-is. -/
def extract_repo_state (p : SrcPath) : Except String (String × RepoEntry) :=
  match p.check with
  | .missing => .error ("Path does not exist: " ++ p.name)
  | .notDir => .error ("Path is not a directory: " ++ p.name)
  | .noWrapperDir => .error ("No .wrapper directory found in: " ++ p.name)
  | .noStateFile => .error ("No state.json found in: " ++ p.name ++ "/.wrapper")
  | .invalidJson => .error ("Invalid JSON in " ++ p.name ++ "/.wrapper/state.json")
  | .notDict => .error ("state.json is not a dict in: " ++ p.name ++
      "/.wrapper/state.json")
  | .valid st =>
    let repo_name :=
      match st.repo with
      | some s => if s = "" then p.name else s
      | none => p.name
    let done_steps := st.done_steps.filterMap (fun e =>
      match e with
      | .dict sid res =>
        some ((sid.getD "unknown") ++ ": " ++ (res.getD "completed"))
      | .str s => some s
      | .other => none)
    let invariants := st.invariants.getD []
    .ok (repo_name, { done_steps := done_steps, invariants := invariants })

/-- True when extract_repo_state succeeds for this path. -/
def extract_ok (p : SrcPath) : Bool :=
  match extract_repo_state p with
  | .ok _ => true
  | .error _ => false

/-- The warning message a failing path contributes. -/
def sync_error_msg (p : SrcPath) : String :=
  match extract_repo_state p with
  | .ok _ => ""
  | .error e => e

/-- Assignment into the external-state mapping (Python dict item assignment):
an existing key has its value replaced in place, a new key is appended. -/
def insertExternal (l : List (String × RepoEntry)) (k : String) (v : RepoEntry) :
    List (String × RepoEntry) :=
  if l.any (fun kv => kv.1 = k) then
    l.map (fun kv => if kv.1 = k then (k, v) else kv)
  else l ++ [(k, v)]

/-- First-match lookup in the external-state mapping (Python dict access). -/
def extLookup (n : String) : List (String × RepoEntry) → Option RepoEntry
  | [] => none
  | kv :: rest => if kv.1 = n then some kv.2 else extLookup n rest

/-- The aggregation loop of cmd_sync_external: successes are keyed into the
mapping by repo name, error messages are collected in order. -/
def sync_fold_aux (acc : List (String × RepoEntry) × List String) :
    List SrcPath → List (String × RepoEntry) × List String
  | [] => acc
  | p :: rest =>
    match extract_repo_state p with
    | .ok (name, entry) =>
      sync_fold_aux (insertExternal acc.1 name entry, acc.2) rest
    | .error e => sync_fold_aux (acc.1, acc.2 ++ [e]) rest

/-- wrapper/commands/sync_external.py cmd_sync_external: no --from paths is a
usage error; otherwise every path is processed (failures become per-path
warnings and do not abort); with zero successes nothing is written and the
command fails, else the aggregated document is written. Returns the boolean
result, the written document when any, and the collected error messages. -/
def cmd_sync_external (from_paths : List SrcPath) :
    Bool × Option (List (String × RepoEntry)) × List String :=
  if from_paths = [] then (false, none, [])
  else
    let acc := sync_fold_aux ([], []) from_paths
    if acc.1 = [] then (false, none, acc.2)
    else (true, some acc.1, acc.2)

/-- The entry of the last-listed valid path carrying repo name n, if any. -/
def last_entry_for (n : String) : List SrcPath → Option RepoEntry
  | [] => none
  | p :: rest =>
    optOr (last_entry_for n rest)
      (match extract_repo_state p with
       | .ok (k, v) => if k = n then some v else none
       | .error _ => none)

/-- A valid source path whose state declares repo name alpha. -/
def srcAlphaOne : SrcPath :=
  { name := "repoA",
    check := .valid
      { repo := some "alpha",
        done_steps := [.dict (some "s1") (some "done"), .str "legacy"],
        invariants := some ["inv1"] } }

/-- A second valid source path for the same repo name alpha. -/
def srcAlphaTwo : SrcPath :=
  { name := "repoB",
    check := .valid
      { repo := some "alpha",
        done_steps := [.dict (some "s2") none],
        invariants := some ["inv2"] } }

/-- A missing source path. -/
def srcMissing : SrcPath := { name := "gone", check := .missing }

/-- A verify environment with one non-state changed file and an empty
allowed_files step. -/
def envC3w : VerifyEnv :=
  { is_git_repo := true, step := some stepEmptyAllowed, staged := false,
    state := ledgerNoPass, architecture := "", copilot_file := none,
    diff := "+x", changed_files := {"b.txt"}, new_dirs := ∅,
    must_not := [], llm := .unavailable, baseline_exists := true,
    snapshot_timestamp := "ts" }

/-- Python str.endswith over the character data of the two strings. -/
def pyEndsWith (s suf : String) : Bool :=
  suf.data.isSuffixOf s.data

/-- wrapper/commands/snapshot.py EXCLUDED_DIRS (a set; membership only). -/
def EXCLUDED_DIRS : List String :=
  [".git", "node_modules", "__pycache__", ".venv", "venv", ".wrapper",
   "dist", "build", ".next", "coverage", ".pytest_cache", ".mypy_cache",
   ".tox", ".eggs", "*.egg-info", ".cache"]

/-- wrapper/commands/snapshot.py EXCLUDED_FILES. -/
def EXCLUDED_FILES : List String :=
  [".DS_Store", "Thumbs.db", "*.pyc", "*.pyo", "*.so", "*.dylib"]

/-- wrapper/commands/snapshot.py should_exclude_dir: hidden directories and
the denylist. -/
def should_exclude_dir (name : String) : Bool :=
  if pyStartsWith name "." then true
  else EXCLUDED_DIRS.contains name

/-- wrapper/commands/snapshot.py should_exclude_file: hidden files are kept;
star patterns match by suffix, others by equality. -/
def should_exclude_file (name : String) : Bool :=
  if pyStartsWith name "." then false
  else EXCLUDED_FILES.any (fun pattern =>
    if pyStartsWith pattern "*" then pyEndsWith name ⟨pattern.data.drop 1⟩
    else name = pattern)

/-- Python pathlib Path(name).suffix for a bare file name: the piece from the
last dot on, empty when the name has no dot, starts with its only dot, or
ends with a dot. -/
def pySuffix (name : String) : String :=
  let l := name.data
  match (l.reverse.findIdx? (fun c => c = Char.ofNat 46)) with
  | none => ""
  | some j =>
    let i := l.length - 1 - j
    if 0 < i ∧ i < l.length - 1 then ⟨l.drop i⟩ else ""

/-- The file_types key of scan_repository for one file name: the lowercased
extension, or the sentinel for files without one. -/
def file_type_key (filename : String) : String :=
  let ext := pyLower (pySuffix filename)
  if ext ≠ "" then ext else "(no extension)"

/-- A directory tree as os.walk exposes it to scan_repository: each node
lists its subdirectories (name and subtree) and its file names. The order of
both lists models the filesystem traversal order, which os.walk does not
guarantee. -/
inductive FSTree where
  | node (dirs : List (String × FSTree)) (files : List String)

mutual

/-- The files collected by the os.walk loop of scan_repository below a node
reached by the (already not excluded) path pre: non-excluded files of the
node, then the files below each non-excluded subdirectory. Paths are kept as
segment lists; scan_repository joins them with slashes. -/
def walkFiles (pre : List String) : FSTree → List (List String)
  | .node dirs files =>
    (files.filter (fun f => ! should_exclude_file f)).map (fun f => pre ++ [f]) ++
      walkFilesDirs pre dirs

/-- walkFiles over a node's subdirectory list (the dirnames pruning of
os.walk: an excluded name removes the whole subtree). -/
def walkFilesDirs (pre : List String) : List (String × FSTree) → List (List String)
  | [] => []
  | (d, t) :: rest =>
    (if should_exclude_dir d then [] else walkFiles (pre ++ [d]) t) ++
      walkFilesDirs pre rest

end

mutual

/-- The directories collected by the os.walk loop of scan_repository below a
node reached by path pre (the root itself is skipped). -/
def walkDirs (pre : List String) : FSTree → List (List String)
  | .node dirs _ => walkDirsDirs pre dirs

/-- walkDirs over a node's subdirectory list: each non-excluded subdirectory
contributes its own path and, recursively, its subtree's paths. -/
def walkDirsDirs (pre : List String) : List (String × FSTree) → List (List String)
  | [] => []
  | (d, t) :: rest =>
    (if should_exclude_dir d then []
     else (pre ++ [d]) :: walkDirs (pre ++ [d]) t) ++
      walkDirsDirs pre rest

end

mutual

/-- Every file path of the tree, with no exclusion: the traversal-order-free
content of the filesystem that scan_repository walks. -/
def allFiles (pre : List String) : FSTree → List (List String)
  | .node dirs files =>
    files.map (fun f => pre ++ [f]) ++ allFilesDirs pre dirs

/-- allFiles over a node's subdirectory list. -/
def allFilesDirs (pre : List String) : List (String × FSTree) → List (List String)
  | [] => []
  | (d, t) :: rest => allFiles (pre ++ [d]) t ++ allFilesDirs pre rest

end

mutual

/-- Every directory path of the tree, with no exclusion. -/
def allDirs (pre : List String) : FSTree → List (List String)
  | .node dirs _ => allDirsDirs pre dirs

/-- allDirs over a node's subdirectory list. -/
def allDirsDirs (pre : List String) : List (String × FSTree) → List (List String)
  | [] => []
  | (d, t) :: rest =>
    (pre ++ [d]) :: (allDirs (pre ++ [d]) t ++ allDirsDirs pre rest)

end

/-- A relative file path survives the walk exactly when every leading
directory segment is non-excluded and the file name is non-excluded. -/
def keepFileRel : List String → Bool
  | [] => false
  | [f] => ! should_exclude_file f
  | d :: rest => (! should_exclude_dir d) && keepFileRel rest

/-- A relative directory path survives the walk exactly when every segment is
non-excluded. -/
def keepDirRel : List String → Bool
  | [] => false
  | [d] => ! should_exclude_dir d
  | d :: rest => (! should_exclude_dir d) && keepDirRel rest

/-- Join path segments with forward slashes, as scan_repository records
relative paths. -/
def renderPath (p : List String) : String :=
  String.intercalate "/" p

/-- Python list.sort on strings: the unique ascending reordering, obtained
here as the sort of the underlying multiset. -/
def sortStrings (l : List String) : List String :=
  Multiset.sort (· ≤ ·) (Multiset.ofList l)

/-- The result of wrapper/commands/snapshot.py scan_repository: sorted
directory and file lists and the per-extension counts (the source stores the
counts as a dict keyed by extension with the sentinel for files without one;
the count function models that mapping). -/
structure RepoScan where
  directories : List String
  files : List String
  file_types : String → Nat

/-- wrapper/commands/snapshot.py scan_repository over a directory tree:
os.walk with the exclusion pruning collects files and directories, the lists
are sorted for consistency, and file types are counted by the lowercased
extension of each collected file name. -/
def scan_repository (t : FSTree) : RepoScan :=
  { directories := sortStrings ((walkDirs [] t).map renderPath),
    files := sortStrings ((walkFiles [] t).map renderPath),
    file_types := fun ext =>
      ((walkFiles [] t).map (fun p => file_type_key (p.getLastD ""))).count ext }

/-- A small tree: a src directory with two files, a docs directory, two root
files, and entries the scan excludes (.git directory, .DS_Store file). -/
def treeA : FSTree :=
  .node
    [("src", .node [] ["a.py", "b.txt"]),
     ("docs", .node [] ["r.md"]),
     (".git", .node [] ["config"])]
    ["root.py", "README", ".DS_Store"]

/-- The same tree content as treeA with every child list reordered. -/
def treeB : FSTree :=
  .node
    [(".git", .node [] ["config"]),
     ("docs", .node [] ["r.md"]),
     ("src", .node [] ["b.txt", "a.py"])]
    [".DS_Store", "README", "root.py"]

end Wrapper

namespace Wrapper

/-- C1: accept refuses (returns failure, ledger unchanged, so nothing is
appended to done_steps) whenever last_verify_status is not PASS or
last_verify_step differs from the step id; when both gate conditions hold and
the step id is not already among done_steps, accept succeeds and done_steps
gains exactly one new entry carrying the step id, the result string and the
timestamp. -/
theorem accept_gate_spec (step : Step) (state : Ledger) (env : AcceptEnv) :
    ((state.last_verify_status ≠ some "PASS" ∨
      state.last_verify_step ≠ some step.step_id) →
      cmd_accept step state env = (false, state)) ∧
    (state.last_verify_status = some "PASS" →
      state.last_verify_step = some step.step_id →
      step.step_id ∉ state.done_steps.map (fun s => s.step_id) →
      (cmd_accept step state env).1 = true ∧
      (cmd_accept step state env).2.done_steps =
        state.done_steps ++
          [{ step_id := step.step_id, result := step.type ++ " completed",
             timestamp := env.now }]) := by
  constructor
  · intro h
    unfold cmd_accept
    rcases h with h | h
    · rw [if_pos h]
    · by_cases hs : state.last_verify_status ≠ some "PASS"
      · rw [if_pos hs]
      · rw [if_neg hs, if_pos h]
  · intro h1 h2 h3
    unfold cmd_accept
    rw [if_neg (by simp [h1]), if_neg (by simp [h2]), if_neg (by simp [h3])]
    refine ⟨rfl, ?_⟩
    by_cases hv : step.type = "verification" ∧ step.success_criteria ≠ [] <;>
      simp [hv, add_done_step]

/-- Witness for accept_gate_spec at concrete inputs: a failed-verification
ledger blocks accept, and a matching PASS ledger gains exactly the new
done-step entry. -/
theorem accept_gate_spec_witness :
    cmd_accept stepImplA ledgerNoPass envA = (false, ledgerNoPass) ∧
    (cmd_accept stepImplA ledgerPassS1 envA).1 = true ∧
    (cmd_accept stepImplA ledgerPassS1 envA).2.done_steps =
      ledgerPassS1.done_steps ++
        [{ step_id := "s1", result := "implementation completed",
           timestamp := "t1" }] := by
  refine ⟨(accept_gate_spec stepImplA ledgerNoPass envA).1 (Or.inl (by decide)), ?_⟩
  have h := (accept_gate_spec stepImplA ledgerPassS1 envA).2
    (by decide) (by decide) (by decide)
  exact ⟨h.1, h.2⟩

/-- C4 counterexample: accepting a verification step whose success_criteria
list is [b, b] against invariants [a] appends BOTH copies: the invariants
list grows by 2 although only one genuinely new criterion exists, and the
resulting list is not duplicate-free, so the invariants list does not behave
as a set under append when success_criteria itself contains duplicates. -/
theorem accept_invariants_set_cex :
    (cmd_accept stepVerifDup ledgerPassV1 envA).2.invariants = ["a", "b", "b"] ∧
    ¬ (cmd_accept stepVerifDup ledgerPassV1 envA).2.invariants.Nodup ∧
    (cmd_accept stepVerifDup ledgerPassV1 envA).2.invariants.length =
      ledgerPassV1.invariants.length + 2 ∧
    (stepVerifDup.success_criteria.filter
        (fun c => c ∉ ledgerPassV1.invariants)).dedup.length = 1 := by
  decide

/-- C4 amended: on a successful accept of a verification-type step, the new
invariants list is the old one with every occurrence of a criterion not
already present appended (criteria already present are dropped, leaving the
list unchanged for them); the list grows by exactly the number of
success_criteria entries absent from the prior invariants, counted with
multiplicity; when success_criteria has no internal duplicates this is the
number of genuinely new criteria and a duplicate-free invariants list stays
duplicate-free. -/
theorem accept_invariants_amended (step : Step) (state : Ledger) (env : AcceptEnv)
    (h1 : state.last_verify_status = some "PASS")
    (h2 : state.last_verify_step = some step.step_id)
    (h3 : step.step_id ∉ state.done_steps.map (fun s => s.step_id))
    (hv : step.type = "verification") :
    (cmd_accept step state env).2.invariants =
      state.invariants ++
        step.success_criteria.filter (fun c => c ∉ state.invariants) ∧
    (cmd_accept step state env).2.invariants.length =
      state.invariants.length +
        (step.success_criteria.filter (fun c => c ∉ state.invariants)).length ∧
    (step.success_criteria.Nodup → state.invariants.Nodup →
      (cmd_accept step state env).2.invariants.Nodup) := by
  have key : (cmd_accept step state env).2.invariants =
      state.invariants ++
        step.success_criteria.filter (fun c => c ∉ state.invariants) := by
    unfold cmd_accept
    rw [if_neg (by simp [h1]), if_neg (by simp [h2]), if_neg (by simp [h3])]
    by_cases hsc : step.success_criteria = []
    · simp [hsc, add_done_step]
    · simp [hv, hsc, add_done_step]
  refine ⟨key, ?_, ?_⟩
  · rw [key]; simp
  · intro hnd hni
    rw [key]
    refine List.Nodup.append hni (hnd.filter _) ?_
    intro c hc1 hc2
    have hc3 := List.of_mem_filter hc2
    simp only [decide_not, Bool.not_eq_true', decide_eq_false_iff_not] at hc3
    exact hc3 hc1

/-- Witness for accept_invariants_amended at a concrete verification step:
criteria [a, c] against invariants [a] add only c, and the result is
duplicate-free. -/
theorem accept_invariants_amended_witness :
    (cmd_accept stepVerifOk ledgerPassV2 envA).2.invariants = ["a", "c"] ∧
    (cmd_accept stepVerifOk ledgerPassV2 envA).2.invariants.Nodup := by
  have h := accept_invariants_amended stepVerifOk ledgerPassV2 envA
    (by decide) (by decide) (by decide) (by decide)
  refine ⟨?_, h.2.2 (by decide) (by decide)⟩
  rw [h.1]; decide

/-- A VerificationResult is coherent when its passed flag means exactly that
no error was accumulated; every check preserves this. -/
def ResultInv (r : VerificationResult) : Prop :=
  r.passed = true ↔ r.errors = []

theorem resultInv_empty : ResultInv VerificationResult.empty := by
  simp [ResultInv, VerificationResult.empty]

theorem resultInv_add_error (r : VerificationResult) (m : String) :
    ResultInv (r.add_error m) := by
  simp [ResultInv, VerificationResult.add_error]

theorem resultInv_add_warning (r : VerificationResult) (m : String)
    (h : ResultInv r) : ResultInv (r.add_warning m) := h

theorem resultInv_foldl {α : Type} (f : VerificationResult → α → VerificationResult)
    (hf : ∀ r x, ResultInv r → ResultInv (f r x)) :
    ∀ (l : List α) (r), ResultInv r → ResultInv (l.foldl f r) := by
  intro l
  induction l with
  | nil => intro r h; exact h
  | cons a t ih => intro r h; exact ih (f r a) (hf r a h)

theorem resultInv_check_allowed_files (changed : Finset String)
    (allowed : List String) (r : VerificationResult) (h : ResultInv r) :
    ResultInv (check_allowed_files changed allowed r) := by
  unfold check_allowed_files
  dsimp only
  split_ifs <;> first | exact resultInv_add_error _ _ | exact h

theorem resultInv_check_new_directories (nd : Finset String) (a : String)
    (r : VerificationResult) (h : ResultInv r) :
    ResultInv (check_new_directories nd a r) := by
  unfold check_new_directories
  split_ifs <;> first | exact resultInv_add_warning _ _ h | exact h

theorem resultInv_check_forbidden_patterns (diff : String)
    (forbidden : List ForbiddenItem) (r : VerificationResult) (h : ResultInv r) :
    ResultInv (check_forbidden_patterns diff forbidden r) := by
  unfold check_forbidden_patterns
  refine resultInv_foldl _ ?_ _ _ h
  intro r item hr
  dsimp only []
  split_ifs with h1
  · exact hr
  · refine resultInv_foldl _ ?_ _ _ hr
    intro r kp hr
    split_ifs with h2
    · refine resultInv_foldl _ ?_ _ _ hr
      intro r p hr
      split_ifs with h3
      · exact resultInv_add_error _ _
      · exact hr
    · exact hr

theorem resultInv_llm_phase (env : VerifyEnv) (r : VerificationResult)
    (h : ResultInv r) : ResultInv (llm_phase env r) := by
  unfold llm_phase
  cases env.llm with
  | unavailable => exact h
  | response text =>
    dsimp only []
    split_ifs with h1
    · exact resultInv_add_error _ _
    · exact h

theorem resultInv_run_rule_checks (env : VerifyEnv) (step : Step) (hd : Bool) :
    ResultInv (run_rule_checks env step hd) := by
  unfold run_rule_checks
  cases hd with
  | false => exact resultInv_empty
  | true =>
    simp only [if_true]
    refine resultInv_check_forbidden_patterns _ _ _ ?_
    split_ifs with h1
    · exact resultInv_check_new_directories _ _ _
        (resultInv_check_allowed_files _ _ _ resultInv_empty)
    · exact resultInv_check_allowed_files _ _ _ resultInv_empty

/-- A foldl whose every step appends a fixed list to the errors field appends
the flat map of those lists. -/
theorem foldl_errors_append {α : Type}
    (f : VerificationResult → α → VerificationResult) (g : α → List String)
    (hf : ∀ r x, (f r x).errors = r.errors ++ g x) :
    ∀ (l : List α) (r), (l.foldl f r).errors = r.errors ++ l.flatMap g := by
  intro l
  induction l with
  | nil => intro r; simp
  | cons a t ih =>
    intro r
    simp only [List.foldl_cons, List.flatMap_cons, ih, hf, List.append_assoc]

theorem check_allowed_files_errors (changed : Finset String)
    (allowed : List String) (r : VerificationResult) :
    (check_allowed_files changed allowed r).errors =
      r.errors ++ allowed_files_error_list changed allowed := by
  unfold check_allowed_files allowed_files_error_list
  dsimp only
  split_ifs <;> simp [VerificationResult.add_error]

theorem check_new_directories_errors (nd : Finset String) (a : String)
    (r : VerificationResult) :
    (check_new_directories nd a r).errors = r.errors := by
  unfold check_new_directories
  split_ifs <;> rfl

theorem check_forbidden_patterns_errors (diff : String)
    (forbidden : List ForbiddenItem) (r : VerificationResult) :
    (check_forbidden_patterns diff forbidden r).errors =
      r.errors ++ forbidden_error_list diff forbidden := by
  unfold check_forbidden_patterns forbidden_error_list
  refine foldl_errors_append _ _ ?_ _ _
  intro r item
  dsimp only []
  split_ifs with h1
  · simp
  · refine foldl_errors_append _ _ ?_ _ _
    intro r kp
    split_ifs with h2
    · refine foldl_errors_append _ _ ?_ _ _
      intro r p
      split_ifs with h3
      · simp [VerificationResult.add_error]
      · simp
    · simp

theorem llm_phase_errors (env : VerifyEnv) (r : VerificationResult) :
    (llm_phase env r).errors =
      r.errors ++ (if llmQuiet env.llm = true then []
        else ["LLM analysis found issues"]) := by
  unfold llm_phase llmQuiet
  cases env.llm with
  | unavailable => simp
  | response text =>
    dsimp only
    cases hx : strContains (pyUpper text) "VERDICT: FAIL" <;>
      simp [hx, VerificationResult.add_error]

theorem run_rule_checks_errors (env : VerifyEnv) (step : Step) :
    (run_rule_checks env step true).errors =
      allowed_files_error_list env.changed_files step.allowed_files ++
        forbidden_error_list env.diff (env.must_not ++ step.forbidden) := by
  unfold run_rule_checks
  simp only [if_true]
  rw [check_forbidden_patterns_errors]
  congr 1
  split_ifs with h1
  · rw [check_new_directories_errors, check_allowed_files_errors]
    simp [VerificationResult.empty]
  · rw [check_allowed_files_errors]
    simp [VerificationResult.empty]

/-- C2: with a non-empty allowed_files list, the allowed-files rule check of
verify records an error (and clears the passed flag) whenever some changed
path outside the .wrapper state directory is not a member of allowed_files,
and leaves the result untouched (no allowed-files error) whenever every
changed non-state path is in allowed_files. -/
theorem check_allowed_files_nonempty_spec (changed : Finset String)
    (allowed : List String) (r : VerificationResult) (h : allowed ≠ []) :
    ((∃ f ∈ changed, ¬ pyStartsWith f ".wrapper/" ∧ f ∉ allowed) →
      (check_allowed_files changed allowed r).passed = false ∧
      (check_allowed_files changed allowed r).errors.length =
        r.errors.length + 1) ∧
    ((∀ f ∈ changed, ¬ pyStartsWith f ".wrapper/" → f ∈ allowed) →
      check_allowed_files changed allowed r = r) := by
  have hiff : (changed.filter (fun f => ¬ pyStartsWith f ".wrapper/") \
      allowed.toFinset) ≠ ∅ ↔
      (∃ f ∈ changed, ¬ pyStartsWith f ".wrapper/" ∧ f ∉ allowed) := by
    rw [← Finset.nonempty_iff_ne_empty]
    constructor
    · rintro ⟨f, hfm⟩
      rw [Finset.mem_sdiff, Finset.mem_filter] at hfm
      exact ⟨f, hfm.1.1, hfm.1.2, by simpa using hfm.2⟩
    · rintro ⟨f, hf, hw, hm⟩
      refine ⟨f, ?_⟩
      rw [Finset.mem_sdiff, Finset.mem_filter]
      exact ⟨⟨hf, hw⟩, by simpa using hm⟩
  unfold check_allowed_files
  dsimp only
  rw [if_neg h]
  constructor
  · intro hex
    rw [if_pos (hiff.mpr hex)]
    simp [VerificationResult.add_error]
  · intro hsub
    rw [if_neg ?_]
    intro hc
    obtain ⟨f, hf, hw, hm⟩ := hiff.mp hc
    exact hm (hsub f hf hw)

/-- Witness for check_allowed_files_nonempty_spec: with allowed list [a.txt],
a change to b.txt is an error, while changes to a.txt and a .wrapper/ file
leave the result untouched. -/
theorem check_allowed_files_nonempty_spec_witness :
    (check_allowed_files {"b.txt", ".wrapper/state.json"} ["a.txt"]
        VerificationResult.empty).passed = false ∧
    check_allowed_files {"a.txt", ".wrapper/state.json"} ["a.txt"]
        VerificationResult.empty = VerificationResult.empty := by
  constructor
  · exact ((check_allowed_files_nonempty_spec {"b.txt", ".wrapper/state.json"}
      ["a.txt"] VerificationResult.empty (by decide)).1 (by decide)).1
  · exact (check_allowed_files_nonempty_spec {"a.txt", ".wrapper/state.json"}
      ["a.txt"] VerificationResult.empty (by decide)).2 (by decide)

theorem mem_ite_list {α : Type} {c : Prop} [Decidable c] {l : List α} {a : α} :
    a ∈ (if c then l else []) ↔ c ∧ a ∈ l := by
  split_ifs with h <;> simp [h]

theorem mem_ite_list_empty {α : Type} {c : Prop} [Decidable c] {l : List α}
    {a : α} : a ∈ (if c then [] else l) ↔ ¬ c ∧ a ∈ l := by
  split_ifs with h <;> simp [h]

/-- C6: the forbidden-pattern scan of verify emits exactly one error per
(item, token) hit: an error message e is recorded iff some forbidden item
(normalized to non-empty text) has a keyword of the fixed table (ui, http,
database) inside its lowercased text, and some token of that keyword's group
occurs in the lowercased diff, with e naming that item and that token. -/
theorem forbidden_scan_spec (diff : String) (forbidden : List ForbiddenItem)
    (e : String) :
    e ∈ (check_forbidden_patterns diff forbidden
        VerificationResult.empty).errors ↔
      ∃ item ∈ forbidden,
        normalize_forbidden_item item ≠ "" ∧
        ∃ kp ∈ pattern_keywords,
          strContains (pyLower (normalize_forbidden_item item)) kp.1 = true ∧
          ∃ p ∈ kp.2,
            strContains (pyLower diff) (pyLower p) = true ∧
            e = forbidden_error_msg (normalize_forbidden_item item) p := by
  rw [check_forbidden_patterns_errors]
  simp only [VerificationResult.empty, List.nil_append, forbidden_error_list,
    List.mem_flatMap, mem_ite_list, mem_ite_list_empty, List.mem_singleton]

/-- In a git repository with a loaded step, cmd_verify runs the loaded-step
body. -/
theorem cmd_verify_eq_loaded (env : VerifyEnv) (now : String) (step : Step)
    (hg : env.is_git_repo = true) (hs : env.step = some step) :
    cmd_verify env now = cmd_verify_loaded env step now := by
  unfold cmd_verify
  rw [if_neg (by simp [hg]), hs]

/-- Reduction of cmd_verify in a git repository with a loaded step, past the
copilot-output gate: all observable fields in terms of the rule checks and
the LLM phase. -/
theorem cmd_verify_run_eq (env : VerifyEnv) (now : String) (step : Step)
    (hg : env.is_git_repo = true) (hs : env.step = some step)
    (hgate : ¬ (step.type = "verification" ∧ pyStrip env.diff = "" ∧
      get_copilot_output_content env.copilot_file = none)) :
    cmd_verify env now =
      { ret := (llm_phase env (run_rule_checks env step
          (verify_has_diff env))).passed,
        state := { capture_baseline_if_first env.state env.baseline_exists
            env.snapshot_timestamp with
          last_verify_status :=
            some (if (llm_phase env (run_rule_checks env step
                (verify_has_diff env))).passed then "PASS"
              else "FAIL"),
          last_verify_step := some step.step_id,
          last_verify_timestamp := some now },
        rule_result := run_rule_checks env step (verify_has_diff env),
        final_result := llm_phase env (run_rule_checks env step
          (verify_has_diff env)),
        verdict := some (llm_phase env (run_rule_checks env step
          (verify_has_diff env))).passed } := by
  rw [cmd_verify_eq_loaded env now step hg hs]
  unfold cmd_verify_loaded
  rw [if_neg (by simp only [verify_has_diff]; simpa using hgate)]
  split_ifs with h2 <;> simp [h2]

/-- C5: whenever cmd_verify reaches a verdict, the ledger's last_verify_step
is set to the current step id, last_verify_timestamp to the current time, and
last_verify_status to PASS exactly when no error was accumulated and FAIL
otherwise — both outcomes are recorded. -/
theorem verify_records_verdict (env : VerifyEnv) (now : String) (b : Bool)
    (h : (cmd_verify env now).verdict = some b) :
    ∃ step, env.step = some step ∧
      (cmd_verify env now).state.last_verify_step = some step.step_id ∧
      (cmd_verify env now).state.last_verify_timestamp = some now ∧
      (cmd_verify env now).state.last_verify_status =
        some (if b then "PASS" else "FAIL") ∧
      (cmd_verify env now).ret = b ∧
      (b = true ↔ (cmd_verify env now).final_result.errors = []) := by
  by_cases hg : env.is_git_repo = true
  · rcases hs : env.step with _ | step
    · simp [cmd_verify, verifyEarly, hg, hs] at h
    · by_cases hgate : step.type = "verification" ∧ pyStrip env.diff = "" ∧
        get_copilot_output_content env.copilot_file = none
      · rw [cmd_verify_eq_loaded env now step hg hs] at h
        unfold cmd_verify_loaded at h
        rw [if_pos (by simp only [verify_has_diff]; simpa using hgate)] at h
        simp at h
      · rw [cmd_verify_run_eq env now step hg hs hgate] at h ⊢
        have hinv : ResultInv (llm_phase env (run_rule_checks env step
            (verify_has_diff env))) :=
          resultInv_llm_phase env _ (resultInv_run_rule_checks env step _)
        simp only [Option.some.injEq] at h
        refine ⟨step, rfl, rfl, rfl, ?_, h, ?_⟩
        · show some (if (llm_phase env (run_rule_checks env step
              (verify_has_diff env))).passed = true then "PASS"
            else "FAIL") = some (if b = true then "PASS" else "FAIL")
          rw [h]
        · rw [← h]
          exact hinv
  · simp [cmd_verify, verifyEarly, hg] at h

/-- Witness for verify_records_verdict: a quiet environment (implementation
step, blank diff, LLM unavailable) reaches verdict PASS and records it. -/
theorem verify_records_verdict_witness :
    ∃ step, envPass.step = some step ∧
      (cmd_verify envPass "t2").state.last_verify_step = some step.step_id ∧
      (cmd_verify envPass "t2").state.last_verify_timestamp = some "t2" ∧
      (cmd_verify envPass "t2").state.last_verify_status =
        some (if true then "PASS" else "FAIL") ∧
      (cmd_verify envPass "t2").ret = true ∧
      (true = true ↔ (cmd_verify envPass "t2").final_result.errors = []) :=
  verify_records_verdict envPass "t2" true (by decide)

/-- C9: for an implementation-type step with a blank diff, cmd_verify skips
the whole rule-check layer (its rule-phase result is the empty result,
whatever allowed_files and forbidden items say), and if the LLM phase adds no
error the run returns success and records last_verify_status PASS with zero
code changes. -/
theorem verify_no_diff_skips_rules (env : VerifyEnv) (now : String) (step : Step)
    (hg : env.is_git_repo = true)
    (hs : env.step = some step)
    (htype : step.type = "implementation")
    (hdiff : pyStrip env.diff = "") :
    (cmd_verify env now).rule_result = VerificationResult.empty ∧
    (llmQuiet env.llm = true →
      (cmd_verify env now).ret = true ∧
      (cmd_verify env now).verdict = some true ∧
      (cmd_verify env now).state.last_verify_status = some "PASS") := by
  have hgate : ¬ (step.type = "verification" ∧ pyStrip env.diff = "" ∧
      get_copilot_output_content env.copilot_file = none) := by
    simp [htype]
  rw [cmd_verify_run_eq env now step hg hs hgate]
  have hrr : run_rule_checks env step (verify_has_diff env) =
      VerificationResult.empty := by
    unfold verify_has_diff
    rw [hdiff]
    rfl
  rw [hrr]
  refine ⟨rfl, ?_⟩
  intro hq
  have hp : (llm_phase env VerificationResult.empty).passed = true := by
    unfold llm_phase
    cases hl : env.llm with
    | unavailable => rfl
    | response text =>
      dsimp only
      rw [if_neg ?_]
      · rfl
      · unfold llmQuiet at hq
        rw [hl] at hq
        simp at hq
        simp [hq]
  rw [hp]
  simp

/-- Witness for verify_no_diff_skips_rules at the quiet environment. -/
theorem verify_no_diff_skips_rules_witness :
    (cmd_verify envPass "t2").rule_result = VerificationResult.empty ∧
    (cmd_verify envPass "t2").ret = true ∧
    (cmd_verify envPass "t2").verdict = some true ∧
    (cmd_verify envPass "t2").state.last_verify_status = some "PASS" := by
  have h := verify_no_diff_skips_rules envPass "t2" stepImplA
    (by decide) (by decide) (by decide) (by decide)
  exact ⟨h.1, h.2 (by decide)⟩

theorem filter_nonstate_ne_empty_iff (changed : Finset String) :
    (changed.filter (fun f => ¬ pyStartsWith f ".wrapper/") ≠ ∅) ↔
      ∃ f ∈ changed, ¬ pyStartsWith f ".wrapper/" := by
  rw [← Finset.nonempty_iff_ne_empty]
  constructor
  · rintro ⟨f, hfm⟩
    rw [Finset.mem_filter] at hfm
    exact ⟨f, hfm.1, hfm.2⟩
  · rintro ⟨f, hf, hw⟩
    refine ⟨f, ?_⟩
    rw [Finset.mem_filter]
    exact ⟨hf, hw⟩

/-- C3 counterexample: for a step with empty allowed_files, a run whose only
changed file lives under the .wrapper state directory still FAILS verify,
because the diff text trips the forbidden-pattern scan; so verify failing is
not equivalent to the existence of a changed non-state path. -/
theorem verify_empty_allowed_iff_cex :
    stepWrapperOnly.allowed_files = [] ∧
    envC3.step = some stepWrapperOnly ∧
    (∀ f ∈ envC3.changed_files, pyStartsWith f ".wrapper/") ∧
    (cmd_verify envC3 "t3").verdict = some false ∧
    (cmd_verify envC3 "t3").ret = false ∧
    (cmd_verify envC3 "t3").state.last_verify_status = some "FAIL" := by
  decide

/-- C3 amended: for a step with empty allowed_files, the allowed-files rule
alone fails verify exactly when a non-state path changed: in a run that
reaches a verdict, provided the forbidden-pattern scan contributes no error
and the LLM phase is quiet (the other error sources), the verdict is FAIL iff
some changed path outside the .wrapper state directory exists; changes
confined to the state directory, or no changes at all, yield PASS. -/
theorem verify_empty_allowed_amended (env : VerifyEnv) (now : String)
    (step : Step) (b : Bool)
    (hg : env.is_git_repo = true)
    (hs : env.step = some step)
    (hall : step.allowed_files = [])
    (hforb : forbidden_error_list env.diff (env.must_not ++ step.forbidden) = [])
    (hllm : llmQuiet env.llm = true)
    (hgitc : env.changed_files ≠ ∅ → pyStrip env.diff ≠ "")
    (hv : (cmd_verify env now).verdict = some b) :
    b = false ↔ ∃ f ∈ env.changed_files, ¬ pyStartsWith f ".wrapper/" := by
  by_cases hgate : step.type = "verification" ∧ pyStrip env.diff = "" ∧
      get_copilot_output_content env.copilot_file = none
  · rw [cmd_verify_eq_loaded env now step hg hs] at hv
    unfold cmd_verify_loaded at hv
    rw [if_pos (by simp only [verify_has_diff]; simpa using hgate)] at hv
    simp at hv
  · rw [cmd_verify_run_eq env now step hg hs hgate] at hv
    simp only [Option.some.injEq] at hv
    have hinv : ResultInv (llm_phase env (run_rule_checks env step
        (verify_has_diff env))) :=
      resultInv_llm_phase env _ (resultInv_run_rule_checks env step _)
    have herr : (llm_phase env (run_rule_checks env step
        (verify_has_diff env))).errors =
        (run_rule_checks env step (verify_has_diff env)).errors := by
      rw [llm_phase_errors, if_pos hllm, List.append_nil]
    cases hd : verify_has_diff env with
    | false =>
      rw [hd] at hv hinv herr
      have hrr : run_rule_checks env step false = VerificationResult.empty := rfl
      have hFe : (llm_phase env (run_rule_checks env step false)).errors = [] := by
        rw [herr, hrr]
        rfl
      have hb : b = true := by
        rw [← hv]
        exact hinv.mpr hFe
      subst hb
      constructor
      · intro hb2
        exact absurd hb2 (by simp)
      · rintro ⟨f, hf, hw⟩
        exfalso
        have hne : env.changed_files ≠ ∅ := by
          intro hemp
          rw [hemp] at hf
          exact absurd hf (Finset.not_mem_empty f)
        have hds := hgitc hne
        simp only [verify_has_diff, decide_eq_false_iff_not, Decidable.not_not]
          at hd
        exact hds hd
    | true =>
      rw [hd] at hv hinv herr
      have hFe : (llm_phase env (run_rule_checks env step true)).errors =
          allowed_files_error_list env.changed_files step.allowed_files := by
        rw [herr, run_rule_checks_errors, hforb, List.append_nil]
      unfold ResultInv at hinv
      rw [← hv, Bool.eq_false_iff, Ne, hinv, hFe, hall]
      unfold allowed_files_error_list
      dsimp only
      rw [if_pos rfl]
      split_ifs with hcc
      · exact iff_of_true (by simp)
          ((filter_nonstate_ne_empty_iff env.changed_files).mp hcc)
      · exact iff_of_false (by simp)
          (fun hex => hcc
            ((filter_nonstate_ne_empty_iff env.changed_files).mpr hex))

/-- Witness for verify_empty_allowed_amended: with empty allowed_files, a
quiet scan and a change to b.txt, the FAIL verdict certifies a non-state
changed path. -/
theorem verify_empty_allowed_amended_witness :
    ∃ f ∈ envC3w.changed_files, ¬ pyStartsWith f ".wrapper/" :=
  (verify_empty_allowed_amended envC3w "t4" stepEmptyAllowed false
    (by decide) (by decide) (by decide) (by decide) (by decide) (by decide)
    (by decide)).mp (by decide)

theorem extLookup_map_replace_eq (k : String) (v : RepoEntry) :
    ∀ l : List (String × RepoEntry), l.any (fun kv => kv.1 = k) = true →
    extLookup k (l.map (fun kv => if kv.1 = k then (k, v) else kv)) = some v := by
  intro l
  induction l with
  | nil => intro h; simp at h
  | cons kv rest ih =>
    intro h
    by_cases h1 : kv.1 = k
    · simp [extLookup, h1]
    · simp only [List.map_cons, if_neg h1, extLookup]
      apply ih
      simpa [h1] using h

theorem extLookup_map_replace_ne (k n : String) (hne : n ≠ k) (v : RepoEntry) :
    ∀ l : List (String × RepoEntry),
    extLookup n (l.map (fun kv => if kv.1 = k then (k, v) else kv)) =
      extLookup n l := by
  intro l
  induction l with
  | nil => rfl
  | cons kv rest ih =>
    by_cases h1 : kv.1 = k
    · simp only [List.map_cons, if_pos h1, extLookup]
      rw [if_neg (fun h => hne h.symm), if_neg (fun h => hne (h1 ▸ h).symm), ih]
    · simp only [List.map_cons, if_neg h1, extLookup, ih]

theorem extLookup_eq_none_of_not_any (n : String) :
    ∀ l : List (String × RepoEntry), l.any (fun kv => kv.1 = n) = false →
    extLookup n l = none := by
  intro l
  induction l with
  | nil => intro _; rfl
  | cons kv rest ih =>
    intro h
    simp only [List.any_cons, Bool.or_eq_false_iff, decide_eq_false_iff_not] at h
    rw [extLookup, if_neg h.1]
    exact ih (by simpa using h.2)

theorem extLookup_append_pair (k n : String) (v : RepoEntry) :
    ∀ l : List (String × RepoEntry),
    extLookup n (l ++ [(k, v)]) =
      optOr (extLookup n l) (if k = n then some v else none) := by
  intro l
  induction l with
  | nil => by_cases h : k = n <;> simp [extLookup, h, optOr]
  | cons kv rest ih =>
    by_cases h : kv.1 = n <;> simp [extLookup, h, ih, optOr]

theorem extLookup_insertExternal (l : List (String × RepoEntry)) (k n : String)
    (v : RepoEntry) :
    extLookup n (insertExternal l k v) =
      if n = k then some v else extLookup n l := by
  unfold insertExternal
  by_cases hnk : n = k
  · subst hnk
    by_cases hany : l.any (fun kv => kv.1 = n) = true
    · rw [if_pos hany, if_pos rfl]
      exact extLookup_map_replace_eq n v l hany
    · rw [if_neg hany, if_pos rfl, extLookup_append_pair]
      rw [extLookup_eq_none_of_not_any n l (Bool.eq_false_iff.mpr hany)]
      simp [optOr]
  · by_cases hany : l.any (fun kv => kv.1 = k) = true
    · rw [if_pos hany, if_neg hnk]
      exact extLookup_map_replace_ne k n hnk v l
    · rw [if_neg hany, if_neg hnk, extLookup_append_pair]
      rw [if_neg (fun h => hnk h.symm)]
      cases extLookup n l <;> simp [optOr]

theorem sync_fold_aux_lookup (n : String) :
    ∀ (l : List SrcPath) (acc : List (String × RepoEntry) × List String),
    extLookup n (sync_fold_aux acc l).1 =
      optOr (last_entry_for n l) (extLookup n acc.1) := by
  intro l
  induction l with
  | nil => intro acc; simp [sync_fold_aux, last_entry_for, optOr]
  | cons p rest ih =>
    intro acc
    cases hex : extract_repo_state p with
    | ok pr =>
      obtain ⟨k, v⟩ := pr
      simp only [sync_fold_aux, last_entry_for, hex]
      rw [ih, extLookup_insertExternal]
      by_cases hkn : k = n
      · rw [if_pos hkn, if_pos hkn.symm]
        cases last_entry_for n rest <;> simp [optOr]
      · rw [if_neg hkn, if_neg (fun h => hkn h.symm)]
        cases last_entry_for n rest <;> simp [optOr]
    | error e =>
      simp only [sync_fold_aux, last_entry_for, hex]
      rw [ih]
      cases last_entry_for n rest <;> simp [optOr]

theorem sync_fold_aux_errors :
    ∀ (l : List SrcPath) (acc : List (String × RepoEntry) × List String),
    (sync_fold_aux acc l).2 = acc.2 ++
      (l.filter (fun p => extract_ok p = false)).map sync_error_msg := by
  intro l
  induction l with
  | nil => intro acc; simp [sync_fold_aux]
  | cons p rest ih =>
    intro acc
    cases hex : extract_repo_state p with
    | ok pr =>
      simp only [sync_fold_aux, hex]
      rw [ih]
      simp [extract_ok, hex]
    | error e =>
      simp only [sync_fold_aux, hex]
      rw [ih]
      simp [extract_ok, sync_error_msg, hex, List.append_assoc]

theorem insertExternal_ne_nil (l : List (String × RepoEntry)) (k : String)
    (v : RepoEntry) : insertExternal l k v ≠ [] := by
  unfold insertExternal
  split_ifs with hany
  · intro h
    rw [List.map_eq_nil_iff] at h
    subst h
    simp at hany
  · simp

theorem sync_fold_aux_nil_iff :
    ∀ (l : List SrcPath) (acc : List (String × RepoEntry) × List String),
    (sync_fold_aux acc l).1 = [] ↔
      (acc.1 = [] ∧ ∀ p ∈ l, extract_ok p = false) := by
  intro l
  induction l with
  | nil => intro acc; simp [sync_fold_aux]
  | cons p rest ih =>
    intro acc
    cases hex : extract_repo_state p with
    | ok pr =>
      obtain ⟨k, v⟩ := pr
      simp only [sync_fold_aux, hex]
      rw [ih]
      refine iff_of_false (fun hc => insertExternal_ne_nil acc.1 k v hc.1) ?_
      rintro ⟨_, hall⟩
      have := hall p (by simp)
      simp [extract_ok, hex] at this
    | error e =>
      simp only [sync_fold_aux, hex]
      rw [ih]
      simp [extract_ok, hex, List.forall_mem_cons]

theorem last_entry_for_isSome (n : String) (v : RepoEntry) :
    ∀ (paths : List SrcPath) (p : SrcPath), p ∈ paths →
    extract_repo_state p = .ok (n, v) →
    (last_entry_for n paths).isSome = true := by
  intro paths
  induction paths with
  | nil => intro p hp; simp at hp
  | cons q rest ih =>
    intro p hp hex
    rw [last_entry_for]
    rcases List.mem_cons.mp hp with h | h
    · subst h
      rw [hex]
      cases last_entry_for n rest <;> simp [optOr]
    · have hs := ih p h hex
      cases hle : last_entry_for n rest
      · rw [hle] at hs; simp at hs
      · simp [optOr]

/-- C7: sync-external never aborts on a bad path: it fails (and then writes
nothing) exactly when no path yields a valid ledger; with at least one valid
path it writes a document in which every valid path's repo name is present;
and every failing path contributes exactly its error message, in order, to
the reported warnings. -/
theorem sync_external_resilience_spec (paths : List SrcPath) :
    ((cmd_sync_external paths).1 = false ↔ ∀ p ∈ paths, extract_ok p = false) ∧
    ((cmd_sync_external paths).1 = false →
      (cmd_sync_external paths).2.1 = none) ∧
    ((∃ p ∈ paths, extract_ok p = true) →
      ∃ d, (cmd_sync_external paths).2.1 = some d ∧
        ∀ p ∈ paths, ∀ k v, extract_repo_state p = .ok (k, v) →
          (extLookup k d).isSome = true) ∧
    (cmd_sync_external paths).2.2 =
      (paths.filter (fun p => extract_ok p = false)).map sync_error_msg := by
  unfold cmd_sync_external
  by_cases hnil : paths = []
  · subst hnil
    simp [sync_fold_aux]
  · rw [if_neg hnil]
    dsimp only
    by_cases hempty : (sync_fold_aux ([], []) paths).1 = []
    · rw [if_pos hempty]
      have hall := ((sync_fold_aux_nil_iff paths ([], [])).mp hempty).2
      refine ⟨iff_of_true rfl hall, fun _ => rfl, ?_, ?_⟩
      · rintro ⟨p, hp, hok⟩
        have := hall p hp
        rw [this] at hok
        exact absurd hok (by simp)
      · exact sync_fold_aux_errors paths ([], [])
    · rw [if_neg hempty]
      refine ⟨?_, ?_, ?_, ?_⟩
      · exact iff_of_false (by simp)
          (fun hall => hempty
            ((sync_fold_aux_nil_iff paths ([], [])).mpr ⟨rfl, hall⟩))
      · intro h
        simp at h
      · intro _
        refine ⟨(sync_fold_aux ([], []) paths).1, rfl, ?_⟩
        intro p hp k v hex
        rw [sync_fold_aux_lookup]
        have := last_entry_for_isSome k v paths p hp hex
        cases hle : last_entry_for k paths
        · rw [hle] at this; simp at this
        · simp [optOr]
      · exact sync_fold_aux_errors paths ([], [])

/-- Witness for sync_external_resilience_spec: one valid path and one missing
path still produce a document carrying the valid repo. -/
theorem sync_external_resilience_spec_witness :
    ∃ d, (cmd_sync_external [srcAlphaOne, srcMissing]).2.1 = some d ∧
      (extLookup "alpha" d).isSome = true := by
  obtain ⟨d, hd, hall⟩ := (sync_external_resilience_spec
    [srcAlphaOne, srcMissing]).2.2.1 ⟨srcAlphaOne, by decide, by decide⟩
  exact ⟨d, hd, hall srcAlphaOne (by decide) "alpha"
    { done_steps := ["s1: done", "legacy"], invariants := ["inv1"] } rfl⟩

/-- C10: the external-state document is keyed by repo name with later paths
overwriting earlier ones: whenever sync-external writes a document, the entry
found under a name n is exactly the data extracted from the last-listed valid
path resolving to repo name n. -/
theorem sync_external_last_writer_wins (paths : List SrcPath) (n : String)
    (d : List (String × RepoEntry))
    (hd : (cmd_sync_external paths).2.1 = some d) :
    extLookup n d = last_entry_for n paths := by
  unfold cmd_sync_external at hd
  by_cases hnil : paths = []
  · rw [if_pos hnil] at hd
    simp at hd
  · rw [if_neg hnil] at hd
    dsimp only at hd
    by_cases hempty : (sync_fold_aux ([], []) paths).1 = []
    · rw [if_pos hempty] at hd
      simp at hd
    · rw [if_neg hempty] at hd
      simp only [Option.some.injEq] at hd
      rw [← hd, sync_fold_aux_lookup]
      cases last_entry_for n paths <;> simp [optOr, extLookup]

/-- Witness for sync_external_last_writer_wins: two paths declaring the same
repo name alpha; the document's alpha entry is the second path's data. -/
theorem sync_external_last_writer_wins_witness :
    extLookup "alpha" (sync_fold_aux ([], []) [srcAlphaOne, srcAlphaTwo]).1 =
      some { done_steps := ["s2: completed"], invariants := ["inv2"] } := by
  rw [sync_external_last_writer_wins [srcAlphaOne, srcAlphaTwo] "alpha" _
    (by decide)]
  decide

mutual

theorem allFiles_shape : ∀ (q : List String) (t : FSTree),
    ∀ p ∈ allFiles q t, ∃ r, p = q ++ r ∧ r ≠ []
  | q, .node dirs files => by
    intro p hp
    simp only [allFiles] at hp
    rcases List.mem_append.mp hp with h | h
    · obtain ⟨f, _, rfl⟩ := List.mem_map.mp h
      exact ⟨[f], rfl, by simp⟩
    · exact allFilesDirs_shape q dirs p h

theorem allFilesDirs_shape : ∀ (q : List String) (l : List (String × FSTree)),
    ∀ p ∈ allFilesDirs q l, ∃ r, p = q ++ r ∧ r ≠ []
  | q, [] => by
    intro p hp
    simp [allFilesDirs] at hp
  | q, (d, t) :: rest => by
    intro p hp
    simp only [allFilesDirs] at hp
    rcases List.mem_append.mp hp with h | h
    · obtain ⟨r, hr, _⟩ := allFiles_shape (q ++ [d]) t p h
      refine ⟨d :: r, ?_, by simp⟩
      rw [hr, List.append_assoc]
      rfl
    · exact allFilesDirs_shape q rest p h

end

mutual

theorem allDirs_shape : ∀ (q : List String) (t : FSTree),
    ∀ p ∈ allDirs q t, ∃ r, p = q ++ r ∧ r ≠ []
  | q, .node dirs _ => by
    intro p hp
    simp only [allDirs] at hp
    exact allDirsDirs_shape q dirs p hp

theorem allDirsDirs_shape : ∀ (q : List String) (l : List (String × FSTree)),
    ∀ p ∈ allDirsDirs q l, ∃ r, p = q ++ r ∧ r ≠ []
  | q, [] => by
    intro p hp
    simp [allDirsDirs] at hp
  | q, (d, t) :: rest => by
    intro p hp
    simp only [allDirsDirs] at hp
    rcases List.mem_cons.mp hp with h | h
    · exact ⟨[d], h, by simp⟩
    · rcases List.mem_append.mp h with h2 | h2
      · obtain ⟨r, hr, _⟩ := allDirs_shape (q ++ [d]) t p h2
        refine ⟨d :: r, ?_, by simp⟩
        rw [hr, List.append_assoc]
        rfl
      · exact allDirsDirs_shape q rest p h2

end

mutual

theorem walkFiles_eq_filter : ∀ (pre : List String) (t : FSTree),
    walkFiles pre t =
      (allFiles pre t).filter (fun p => keepFileRel (p.drop pre.length))
  | pre, .node dirs files => by
    simp only [walkFiles, allFiles, List.filter_append]
    congr 1
    · rw [List.filter_map]
      refine congrArg _ (List.filter_congr ?_)
      intro f _
      simp [Function.comp, List.drop_left, keepFileRel]
    · exact walkFilesDirs_eq_filter pre dirs

theorem walkFilesDirs_eq_filter : ∀ (pre : List String)
    (l : List (String × FSTree)),
    walkFilesDirs pre l =
      (allFilesDirs pre l).filter (fun p => keepFileRel (p.drop pre.length))
  | pre, [] => by
    simp [walkFilesDirs, allFilesDirs]
  | pre, (d, t) :: rest => by
    simp only [walkFilesDirs, allFilesDirs, List.filter_append]
    congr 1
    · by_cases hx : should_exclude_dir d = true
      · rw [if_pos hx]
        symm
        rw [List.filter_eq_nil_iff]
        intro p hp
        obtain ⟨r, hr, hne⟩ := allFiles_shape (pre ++ [d]) t p hp
        subst hr
        rw [List.append_assoc, List.drop_left]
        cases r with
        | nil => exact absurd rfl hne
        | cons a rs => simp [keepFileRel, hx]
      · rw [if_neg hx, walkFiles_eq_filter (pre ++ [d]) t]
        have hx2 : should_exclude_dir d = false := Bool.eq_false_iff.mpr hx
        refine List.filter_congr ?_
        intro p hp
        obtain ⟨r, hr, hne⟩ := allFiles_shape (pre ++ [d]) t p hp
        subst hr
        rw [List.drop_left, List.append_assoc, List.drop_left]
        cases r with
        | nil => exact absurd rfl hne
        | cons a rs => simp [keepFileRel, hx2]
    · exact walkFilesDirs_eq_filter pre rest

end

mutual

theorem walkDirs_eq_filter : ∀ (pre : List String) (t : FSTree),
    walkDirs pre t =
      (allDirs pre t).filter (fun p => keepDirRel (p.drop pre.length))
  | pre, .node dirs files => by
    simp only [walkDirs, allDirs]
    exact walkDirsDirs_eq_filter pre dirs

theorem walkDirsDirs_eq_filter : ∀ (pre : List String)
    (l : List (String × FSTree)),
    walkDirsDirs pre l =
      (allDirsDirs pre l).filter (fun p => keepDirRel (p.drop pre.length))
  | pre, [] => by
    simp [walkDirsDirs, allDirsDirs]
  | pre, (d, t) :: rest => by
    simp only [walkDirsDirs, allDirsDirs, List.filter_cons]
    have hdp : List.drop pre.length (pre ++ [d]) = [d] := List.drop_left pre [d]
    by_cases hx : should_exclude_dir d = true
    · have hz : (allDirs (pre ++ [d]) t).filter
          (fun p => keepDirRel (p.drop pre.length)) = [] := by
        rw [List.filter_eq_nil_iff]
        intro p hp
        obtain ⟨r, hr, hne⟩ := allDirs_shape (pre ++ [d]) t p hp
        subst hr
        rw [List.append_assoc, List.drop_left]
        cases r with
        | nil => exact absurd rfl hne
        | cons a rs => simp [keepDirRel, hx]
      rw [if_pos hx, if_neg (by rw [hdp]; simp [keepDirRel, hx]),
        List.nil_append, List.filter_append, hz, List.nil_append]
      exact walkDirsDirs_eq_filter pre rest
    · have hx2 : should_exclude_dir d = false := Bool.eq_false_iff.mpr hx
      rw [if_neg hx, if_pos (by rw [hdp]; simp [keepDirRel, hx2]),
        List.cons_append]
      congr 1
      rw [List.filter_append]
      congr 1
      · rw [walkDirs_eq_filter (pre ++ [d]) t]
        refine List.filter_congr ?_
        intro p hp
        obtain ⟨r, hr, hne⟩ := allDirs_shape (pre ++ [d]) t p hp
        subst hr
        rw [List.drop_left, List.append_assoc, List.drop_left]
        cases r with
        | nil => exact absurd rfl hne
        | cons a rs => simp [keepDirRel, hx2]
      · exact walkDirsDirs_eq_filter pre rest

end

/-- C8: the repository snapshot scan is deterministic in the tree content
alone: two trees carrying the same multiset of file paths and of directory
paths — however their children are ordered, i.e. whatever order the
filesystem traversal yields — produce identical sorted file lists, identical
sorted directory lists, and identical per-extension counts (files without an
extension counted under the sentinel key). -/
theorem scan_repository_deterministic (t₁ t₂ : FSTree)
    (hf : Multiset.ofList (allFiles [] t₁) = Multiset.ofList (allFiles [] t₂))
    (hd : Multiset.ofList (allDirs [] t₁) = Multiset.ofList (allDirs [] t₂)) :
    (scan_repository t₁).files = (scan_repository t₂).files ∧
    (scan_repository t₁).directories = (scan_repository t₂).directories ∧
    ∀ ext, (scan_repository t₁).file_types ext =
      (scan_repository t₂).file_types ext := by
  have hpf : List.Perm (walkFiles [] t₁) (walkFiles [] t₂) := by
    rw [walkFiles_eq_filter, walkFiles_eq_filter]
    simp only [List.length_nil, List.drop_zero]
    exact (Multiset.coe_eq_coe.mp hf).filter _
  have hpd : List.Perm (walkDirs [] t₁) (walkDirs [] t₂) := by
    rw [walkDirs_eq_filter, walkDirs_eq_filter]
    simp only [List.length_nil, List.drop_zero]
    exact (Multiset.coe_eq_coe.mp hd).filter _
  refine ⟨?_, ?_, ?_⟩
  · unfold scan_repository sortStrings
    dsimp only
    exact congrArg _ (Multiset.coe_eq_coe.mpr (hpf.map renderPath))
  · unfold scan_repository sortStrings
    dsimp only
    exact congrArg _ (Multiset.coe_eq_coe.mpr (hpd.map renderPath))
  · intro ext
    unfold scan_repository
    dsimp only
    exact (hpf.map _).count_eq ext

/-- Witness for scan_repository_deterministic: two orderings of the same
small tree scan identically. -/
theorem scan_repository_deterministic_witness :
    (scan_repository treeA).files = (scan_repository treeB).files ∧
    (scan_repository treeA).directories = (scan_repository treeB).directories ∧
    (scan_repository treeA).file_types ".py" =
      (scan_repository treeB).file_types ".py" := by
  have h := scan_repository_deterministic treeA treeB (by decide) (by decide)
  exact ⟨h.1, h.2.1, h.2.2 ".py"⟩

end Wrapper
